import Mathlib

/-!
Shallow embedding of `main.go` of website-change-detector.

The program polls a web page, looks for a phrase in the response body and
sends one SMS through a messaging API once the phrase is gone.

Go strings are byte sequences; they are modelled as lists of bytes.
The outside world (the HTTP client, the environment, the command line) is
an explicit input of every function that touches it, and everything the
program does to the outside world is recorded in a trace of events.
-/

namespace WebsiteChangeDetector

/-! ## Strings -/

/-- One byte of a Go string. -/
abbrev Byte := Fin 256

/-- A Go `string` (or `[]byte`): a finite sequence of bytes. -/
abbrev Str := List Byte

/-- Go conversion `byte(x)`: the low eight bits. -/
def byte (n : Nat) : Byte := ⟨n % 256, Nat.mod_lt n (by decide)⟩

/-- The bytes of an ASCII string literal of the source. -/
def ascii (s : String) : Str := s.data.map (fun c => byte c.toNat)

/-- Go `strings.HasPrefix(s, p)`: `p` is an initial segment of `s`. -/
def hasPrefix : Str → Str → Bool
  | _, [] => true
  | [], _ :: _ => false
  | a :: s, b :: p => a == b && hasPrefix s p

/-- Search of `strings.Index`: the offset of the first occurrence of `substr`
in `s`, counted from `k`, or `-1` when there is none. -/
def indexFrom : Str → Str → Nat → Int
  | [], substr, k => if substr = [] then (k : Int) else -1
  | a :: s, substr, k =>
    if hasPrefix (a :: s) substr then (k : Int) else indexFrom s substr (k + 1)

/-- Go `strings.Index(s, substr)`: the index of the first instance of `substr`
in `s`, or `-1` if `substr` is not present in `s`. -/
def stringsIndex (s substr : Str) : Int := indexFrom s substr 0

/-- Go `strings.Contains(s, substr)`, which is `Index(s, substr) >= 0`. -/
def stringsContains (s substr : Str) : Bool := decide (stringsIndex s substr ≥ 0)

/-- The phrase occurs in the body as a contiguous run of bytes. -/
def OccursIn (phrase body : Str) : Prop :=
  ∃ before after : Str, body = before ++ phrase ++ after

/-! ## Errors and HTTP responses -/

/-- A Go `error` value: where it was made, and the text `Error()` returns. -/
inductive GoError
  /-- An error handed back by a library call (`net/http`, `io`). -/
  | external (text : Str)
  /-- The value of `errors.New(text)`. -/
  | errorsNew (text : Str)
  /-- The value of `fmt.Errorf(...)`, with its formatted text. -/
  | fmtErrorf (text : Str)
  deriving DecidableEq, Repr

/-- Go `err.Error()`. -/
def GoError.Error : GoError → Str
  | .external t => t
  | .errorsNew t => t
  | .fmtErrorf t => t

/-- What the program can observe of an `*http.Response`.
`bodyData` and `bodyReadErr` are the two results of `ioutil.ReadAll(resp.Body)`
(the bytes read and the error that ended the read, if any), `bodyCloseErr` is
the result of `resp.Body.Close()`. -/
structure Response where
  StatusCode : Int
  Status : Str
  bodyData : Str
  bodyReadErr : Option GoError
  bodyCloseErr : Option GoError
  deriving DecidableEq, Repr

/-! ## The verbs of package `fmt` the program uses -/

/-- Decimal digits of a natural number, most significant first, as `%d` prints
them; `fuel` bounds the number of digits. -/
def digitsAux : Nat → Nat → Str → Str
  | 0, _, acc => acc
  | fuel + 1, n, acc =>
    if n < 10 then byte (48 + n) :: acc
    else digitsAux fuel (n / 10) (byte (48 + n % 10) :: acc)

/-- The verb `%d` on a non-negative integer. -/
def fmtNat (n : Nat) : Str := digitsAux (n + 1) n []

/-- The verb `%d` of package `fmt` on an `int`. -/
def fmtD (c : Int) : Str :=
  if c < 0 then byte 45 :: fmtNat c.natAbs else fmtNat c.natAbs

/-- The value of a decimal numeral (inverse of `fmtNat`). -/
def decimalValue (s : Str) : Nat := s.foldl (fun acc b => 10 * acc + (b.val - 48)) 0

/-- Package `strconv`: `lowerhex[n]`, a digit of `"0123456789abcdef"`. -/
def lowerhex (n : Nat) : Byte := if n < 10 then byte (48 + n) else byte (87 + n)

/-- Package `utf8`: `RuneError`, the replacement character U+FFFD. -/
def RuneError : Nat := 0xFFFD

/-- Package `utf8`: the table `first` together with `acceptRanges`. For a
leading byte it gives the length of the encoding and the range the second
byte has to lie in; `none` for a byte that cannot start an encoding. -/
def first (b : Nat) : Option (Nat × Nat × Nat) :=
  if 0xC2 ≤ b ∧ b ≤ 0xDF then some (2, 0x80, 0xBF)
  else if b = 0xE0 then some (3, 0xA0, 0xBF)
  else if 0xE1 ≤ b ∧ b ≤ 0xEC then some (3, 0x80, 0xBF)
  else if b = 0xED then some (3, 0x80, 0x9F)
  else if 0xEE ≤ b ∧ b ≤ 0xEF then some (3, 0x80, 0xBF)
  else if b = 0xF0 then some (4, 0x90, 0xBF)
  else if 0xF1 ≤ b ∧ b ≤ 0xF3 then some (4, 0x80, 0xBF)
  else if b = 0xF4 then some (4, 0x80, 0x8F)
  else none

/-- Package `utf8`: `DecodeRuneInString(s)`, the first rune of `s` and its
width in bytes; `(RuneError, 1)` for an invalid encoding. -/
def decodeRuneInString (s : Str) : Nat × Nat :=
  match s with
  | [] => (RuneError, 0)
  | s0 :: _ =>
    if s0.val < 0x80 then (s0.val, 1)
    else
      match first s0.val with
      | none => (RuneError, 1)
      | some (sz, lo, hi) =>
        if s.length < sz then (RuneError, 1)
        else
          let s1 := (s.getD 1 0).val
          if s1 < lo ∨ hi < s1 then (RuneError, 1)
          else if sz ≤ 2 then ((s0.val &&& 0x1F) <<< 6 ||| (s1 &&& 0x3F), 2)
          else
            let s2 := (s.getD 2 0).val
            if s2 < 0x80 ∨ 0xBF < s2 then (RuneError, 1)
            else if sz ≤ 3 then
              ((s0.val &&& 0x0F) <<< 12 ||| (s1 &&& 0x3F) <<< 6 ||| (s2 &&& 0x3F), 3)
            else
              let s3 := (s.getD 3 0).val
              if s3 < 0x80 ∨ 0xBF < s3 then (RuneError, 1)
              else
                ((s0.val &&& 0x07) <<< 18 ||| (s1 &&& 0x3F) <<< 12 |||
                  (s2 &&& 0x3F) <<< 6 ||| (s3 &&& 0x3F), 4)

/-- Package `utf8`: `AppendRune(nil, r)`, the UTF-8 encoding of a rune. -/
def appendRune (r : Nat) : Str :=
  if r ≤ 0x7F then [byte r]
  else if r ≤ 0x7FF then [byte (0xC0 ||| r >>> 6), byte (0x80 ||| (r &&& 0x3F))]
  else
    let r := if r > 0x10FFFF ∨ (0xD800 ≤ r ∧ r ≤ 0xDFFF) then RuneError else r
    if r ≤ 0xFFFF then
      [byte (0xE0 ||| r >>> 12), byte (0x80 ||| (r >>> 6 &&& 0x3F)),
        byte (0x80 ||| (r &&& 0x3F))]
    else
      [byte (0xF0 ||| r >>> 18), byte (0x80 ||| (r >>> 12 &&& 0x3F)),
        byte (0x80 ||| (r >>> 6 &&& 0x3F)), byte (0x80 ||| (r &&& 0x3F))]

/-- Package `strconv`: `IsPrint(r)`. Runes up to U+00FF are decided in the
code of `IsPrint`; for the others it searches the Unicode tables of the
package, which are not part of this development and are the parameter
`printTable`. -/
def isPrint (printTable : Nat → Bool) (r : Nat) : Bool :=
  if r ≤ 0xFF then
    if 0x20 ≤ r ∧ r ≤ 0x7E then true
    else if 0xA1 ≤ r ∧ r ≤ 0xFF then r != 0xAD
    else false
  else printTable r

/-- The hexadecimal digits of `r` from bit `4 * k - 4` down to bit `0`. -/
def hexDigits : Nat → Nat → Str
  | 0, _ => []
  | k + 1, r => lowerhex (r >>> (4 * k) &&& 0xF) :: hexDigits k r

/-- Package `strconv`: `appendEscapedRune(nil, r, '"', false, false)`. The
rune comes from `decodeRuneInString`, so it is a valid rune and the case
`!utf8.ValidRune(r)` of the Go code does not arise. -/
def appendEscapedRune (printTable : Nat → Bool) (r : Nat) : Str :=
  if r = 0x22 ∨ r = 0x5C then [0x5C, byte r]
  else if isPrint printTable r then appendRune r
  else if r = 0x07 then [0x5C, 0x61]
  else if r = 0x08 then [0x5C, 0x62]
  else if r = 0x0C then [0x5C, 0x66]
  else if r = 0x0A then [0x5C, 0x6E]
  else if r = 0x0D then [0x5C, 0x72]
  else if r = 0x09 then [0x5C, 0x74]
  else if r = 0x0B then [0x5C, 0x76]
  else if r < 0x20 ∨ r = 0x7F then
    [0x5C, 0x78, lowerhex ((r % 256) >>> 4), lowerhex ((r % 256) &&& 0xF)]
  else if r < 0x10000 then [0x5C, 0x75] ++ hexDigits 4 r
  else [0x5C, 0x55] ++ hexDigits 8 r

/-- The loop of `strconv.appendQuotedWith`: one rune of `s` per round. -/
def quoteLoop (printTable : Nat → Bool) : Nat → Str → Str
  | 0, _ => []
  | fuel + 1, s =>
    match s with
    | [] => []
    | s0 :: _ =>
      let rw : Nat × Nat := if s0.val ≥ 0x80 then decodeRuneInString s else (s0.val, 1)
      if rw.2 = 1 ∧ rw.1 = RuneError then
        [0x5C, 0x78, lowerhex (s0.val >>> 4), lowerhex (s0.val &&& 0xF)] ++
          quoteLoop printTable fuel (s.drop rw.2)
      else
        appendEscapedRune printTable rw.1 ++ quoteLoop printTable fuel (s.drop rw.2)

/-- Go `strconv.Quote(s)`, which is what the verb `%q` prints for a string:
a double-quoted Go string literal for `s`. -/
def strconvQuote (printTable : Nat → Bool) (s : Str) : Str :=
  [0x22] ++ quoteLoop printTable s.length s ++ [0x22]

/-- The format `"%q no longer has %q"` applied to two strings. -/
def sprintfNoLongerHas (printTable : Nat → Bool) (a b : Str) : Str :=
  strconvQuote printTable a ++ ascii " no longer has " ++ strconvQuote printTable b

/-! ## Configuration -/

/-- The command line, flag by flag; `none` for a flag that is not given.
`to_` and `from_` are the flags `-to` and `-from`. -/
structure Args where
  url : Option Str
  phrase : Option Str
  to_ : Option Str
  from_ : Option Str
  frequency : Option Int
  dryrun : Option Bool
  deriving DecidableEq, Repr

/-- The package-level flag variables after `flag.Parse()`; `to_` and `from_`
are the variables `to` and `from`. -/
structure Flags where
  pageToCheck : Str
  matchPhrase : Str
  to_ : Str
  from_ : Str
  frequency : Int
  dryRun : Bool
  deriving DecidableEq, Repr

/-- The `flag.String`, `flag.Int` and `flag.Bool` declarations with their
default values, followed by `flag.Parse()`. -/
def flagParse (a : Args) : Flags :=
  { pageToCheck := a.url.getD [],
    matchPhrase := a.phrase.getD [],
    to_ := a.to_.getD [],
    from_ := a.from_.getD [],
    frequency := a.frequency.getD 60,
    dryRun := a.dryrun.getD false }

/-- The two environment variables the program reads; `none` when unset. -/
structure Environ where
  TWILIO_ACCOUNT_SID : Option Str
  TWILIO_AUTH_TOKEN : Option Str
  deriving DecidableEq, Repr

/-- Go `os.Getenv`: the value of the variable, empty when it is unset. -/
def Getenv (v : Option Str) : Str := v.getD []

def EnvVarTwilioAccountSID : Str := ascii "TWILIO_ACCOUNT_SID"

def EnvVarTwilioAuthToken : Str := ascii "TWILIO_AUTH_TOKEN"

def twilioAPIBaseURL : Str := ascii "https://api.twilio.com/2010-04-01"

/-- Conversion of an integer to `int64` (two's complement wrap-around). -/
def wrapInt64 (x : Int) : Int := (x + 2 ^ 63) % 2 ^ 64 - 2 ^ 63

/-- Go `time.Second`, in nanoseconds. -/
def timeSecond : Int := 1000000000

/-! ## Events -/

/-- The request `notify` hands to `http.DefaultClient.Do`. The form values are
kept as set by `v.Set`, before `v.Encode()` percent-encodes them. -/
structure PostRequest where
  method : Str
  url : Str
  formTo : Str
  formFrom : Str
  formBody : Str
  basicAuthUser : Str
  basicAuthPassword : Str
  header : List (Str × Str)
  deriving DecidableEq, Repr

/-- What the program does to the outside world. -/
inductive Event
  | logError (msg : Str)
  | logWarn (msg : Str)
  | logInfo (msg : Str)
  /-- The wait `<-time.NewTimer(d).C`, with `d` in nanoseconds. -/
  | timerWait (d : Int)
  /-- The call `http.Get(url)`. -/
  | httpGet (url : Str)
  /-- The call `http.DefaultClient.Do(req)`. -/
  | httpDo (req : PostRequest)
  deriving DecidableEq, Repr

/-! ## checkPage -/

/-- Deferred `resp.Body.Close()`: a failure is logged, nothing else. -/
def closeBody (what : Str) (resp : Response) : List Event :=
  match resp.bodyCloseErr with
  | some err =>
    [Event.logWarn (ascii "unable to close " ++ what ++ ascii " response body due to " ++ err.Error)]
  | none => []

/-- Function `checkPage`. `get` is the outcome of `http.Get(*pageToCheck)`.
The result is the pair `(bool, error)` the function returns, with `none` for
a nil error, and the events it causes, in order. -/
def checkPage (f : Flags) (get : Except GoError Response) : (Bool × Option GoError) × List Event :=
  match get with
  | .error err => ((false, some err), [Event.httpGet f.pageToCheck])
  | .ok resp =>
    if resp.StatusCode ≠ 200 then
      ((false, some (GoError.errorsNew resp.Status)),
        [Event.httpGet f.pageToCheck] ++ closeBody (ascii "page") resp)
    else
      match resp.bodyReadErr with
      | some err =>
        ((false, some err), [Event.httpGet f.pageToCheck] ++ closeBody (ascii "page") resp)
      | none =>
        ((stringsContains resp.bodyData f.matchPhrase, none),
          [Event.httpGet f.pageToCheck] ++ closeBody (ascii "page") resp)

/-! ## notify -/

/-- The outside world as one call of `notify` meets it: the error result of
`http.NewRequest` (`none` for nil) and the outcome of `http.DefaultClient.Do`. -/
structure NotifyWorld where
  newRequestErr : Option GoError
  doResult : Except GoError Response

/-- The value `notify` sets for the form field `Body`. -/
def notifyBody (printTable : Nat → Bool) (f : Flags) : Str :=
  sprintfNoLongerHas printTable f.pageToCheck f.matchPhrase

/-- Function `notify`. The result is the error it returns (`none` for nil) and
the events it causes, in order. -/
def notify (printTable : Nat → Bool) (f : Flags) (twilioAccountSID twilioAuthToken : Str)
    (w : NotifyWorld) : Option GoError × List Event :=
  let endpoint := ascii "/Accounts/" ++ twilioAccountSID ++ ascii "/Messages.json"
  let method := ascii "POST"
  match w.newRequestErr with
  | some err => (some err, [])
  | none =>
    let req : PostRequest :=
      { method := method,
        url := twilioAPIBaseURL ++ endpoint,
        formTo := f.to_,
        formFrom := f.from_,
        formBody := notifyBody printTable f,
        basicAuthUser := twilioAccountSID,
        basicAuthPassword := twilioAuthToken,
        header := [(ascii "Accept", ascii "application/json"),
          (ascii "Content-Type", ascii "application/x-www-form-urlencoded")] }
    match w.doResult with
    | .error err => (some err, [Event.httpDo req])
    | .ok resp =>
      if resp.StatusCode ≠ 201 then
        (some (GoError.fmtErrorf (fmtD resp.StatusCode ++ ascii ": " ++ resp.bodyData)),
          [Event.httpDo req] ++ closeBody (ascii "SMS") resp)
      else (none, [Event.httpDo req] ++ closeBody (ascii "SMS") resp)

/-! ## main -/

/-- The checks of `main` between `flag.Parse()` and the loop. The result is
the exit code and the log of the `os.Exit` taken, or the two credentials with
which the loop is entered. -/
def startup (f : Flags) (env : Environ) : Except (Nat × List Event) (Str × Str) :=
  let twilioAccountSID := Getenv env.TWILIO_ACCOUNT_SID
  if twilioAccountSID = [] ∧ f.dryRun = false then
    .error (1, [Event.logError (EnvVarTwilioAccountSID ++ ascii " not set in environment")])
  else
    let twilioAuthToken := Getenv env.TWILIO_AUTH_TOKEN
    if twilioAuthToken = [] ∧ f.dryRun = false then
      .error (1, [Event.logError (EnvVarTwilioAuthToken ++ ascii " not set in environment")])
    else if f.pageToCheck = [] then
      .error (1, [Event.logError (ascii "\"url\" flag must be included")])
    else if f.matchPhrase = [] then
      .error (1, [Event.logError (ascii "\"phrase\" flag must be included")])
    else if f.to_ = [] then
      .error (1, [Event.logError (ascii "\"to\" flag must be included")])
    else if f.from_ = [] then
      .error (1, [Event.logError (ascii "\"from\" flag must be included")])
    else .ok (twilioAccountSID, twilioAuthToken)

/-- The local `checkFrequency := time.Second * time.Duration(*frequency)`, an
`int64` number of nanoseconds. -/
def checkFrequency (f : Flags) : Int := wrapInt64 (timeSecond * wrapInt64 f.frequency)

/-- The outside world as a run of the loop meets it: the outcome of each call
of `http.Get` and what each call of `notify` meets, in the order of the calls. -/
structure World where
  get : Nat → Except GoError Response
  post : Nat → NotifyWorld

/-- State of the loop: the variable `i` (an `int`, kept modulo `2 ^ 64`), the
number of calls of `checkPage` and of `notify` made so far, and the events so
far, oldest first. -/
structure LoopState where
  i : Nat
  checks : Nat
  notifies : Nat
  trace : List Event
  deriving DecidableEq, Repr

/-- How one round of the loop ends: `continue` (or the end of the body) into
the next round, or `return`. -/
inductive Tick
  | next (s : LoopState)
  | done (s : LoopState)
  deriving DecidableEq, Repr

/-- One round of the loop `for i := 0; true; i++` of `main`. -/
def loopBody (printTable : Nat → Bool) (f : Flags) (twilioAccountSID twilioAuthToken : Str)
    (w : World) (s : LoopState) : Tick :=
  let t0 := if s.i ≠ 0 then s.trace ++ [Event.timerWait (checkFrequency f)] else s.trace
  let t1 := t0 ++ [Event.logInfo (ascii "checking...")]
  let r := checkPage f (w.get s.checks)
  let t2 := t1 ++ r.2
  let i1 := (s.i + 1) % 2 ^ 64
  match r.1 with
  | (_, some err) =>
    .next { i := i1, checks := s.checks + 1, notifies := s.notifies,
            trace := t2 ++ [Event.logWarn (ascii "could not get page: " ++ err.Error)] }
  | (true, none) =>
    .next { i := i1, checks := s.checks + 1, notifies := s.notifies, trace := t2 }
  | (false, none) =>
    let t3 := t2 ++ [Event.logInfo (sprintfNoLongerHas printTable f.pageToCheck f.matchPhrase)]
    if f.dryRun = false then
      let n := notify printTable f twilioAccountSID twilioAuthToken (w.post s.notifies)
      match n.1 with
      | some err =>
        .next { i := i1, checks := s.checks + 1, notifies := s.notifies + 1,
                trace := t3 ++ n.2 ++
                  [Event.logWarn (ascii "could not send notification: " ++ err.Error)] }
      | none =>
        .done { i := s.i, checks := s.checks + 1, notifies := s.notifies + 1,
                trace := t3 ++ n.2 }
    else
      .done { i := s.i, checks := s.checks + 1, notifies := s.notifies, trace := t3 }

/-- How far a run of the program has come. -/
inductive Outcome
  /-- The program ended in `os.Exit(code)`. -/
  | exited (code : Nat) (trace : List Event)
  /-- Function `main` returned (exit code 0). -/
  | returned (s : LoopState)
  /-- The loop is still going after the rounds looked at. -/
  | running (s : LoopState)
  deriving DecidableEq, Repr

/-- The first `ticks` rounds of the loop, from state `s`. -/
def runLoop (printTable : Nat → Bool) (f : Flags) (twilioAccountSID twilioAuthToken : Str)
    (w : World) : Nat → LoopState → Outcome
  | 0, s => .running s
  | ticks + 1, s =>
    match loopBody printTable f twilioAccountSID twilioAuthToken w s with
    | .next s1 => runLoop printTable f twilioAccountSID twilioAuthToken w ticks s1
    | .done s1 => .returned s1

/-- The state in which the loop is entered. -/
def initialState : LoopState := { i := 0, checks := 0, notifies := 0, trace := [] }

/-- Function `main`, followed for at most `ticks` rounds of its loop. -/
def main (printTable : Nat → Bool) (a : Args) (env : Environ) (w : World) (ticks : Nat) :
    Outcome :=
  let f := flagParse a
  match startup f env with
  | .error (code, tr) => .exited code tr
  | .ok (twilioAccountSID, twilioAuthToken) =>
    runLoop printTable f twilioAccountSID twilioAuthToken w ticks initialState

/-- Startup validation passes: no `os.Exit` before the loop. -/
def validated (f : Flags) (env : Environ) : Bool :=
  match startup f env with
  | .ok _ => true
  | .error _ => false

/-- A round triggers when `checkPage` returns `(false, nil)`: the check
succeeded and the phrase is absent. -/
def triggers (f : Flags) (w : World) (j : Nat) : Bool :=
  decide ((checkPage f (w.get j)).1 = (false, none))

/-- Number of rounds among the first `n` that trigger. -/
def triggerCount (f : Flags) (w : World) (n : Nat) : Nat :=
  ((List.range n).filter (triggers f w)).length

/-- A round stays quiet when `checkPage` returns an error or reports the
phrase present. -/
def quietRound (f : Flags) (w : World) (j : Nat) : Prop :=
  (checkPage f (w.get j)).1.2 ≠ none ∨ (checkPage f (w.get j)).1.1 = true

instance (f : Flags) (w : World) (j : Nat) : Decidable (quietRound f w j) := by
  unfold quietRound
  infer_instance

/-- The event is a timer wait. -/
def Event.isTimerWait : Event → Bool
  | .timerWait _ => true
  | _ => false

/-- The event is an outbound call of the messaging API. -/
def Event.isHttpDo : Event → Bool
  | .httpDo _ => true
  | _ => false

/-- The event is a page fetch. -/
def Event.isHttpGet : Event → Bool
  | .httpGet _ => true
  | _ => false

/-- A byte `%q` prints as it is: printable ASCII other than the double quote
and the backslash. -/
def plainByte (b : Byte) : Prop := 0x20 ≤ b.val ∧ b.val ≤ 0x7E ∧ b.val ≠ 0x22 ∧ b.val ≠ 0x5C

instance (b : Byte) : Decidable (plainByte b) := by unfold plainByte; infer_instance

/-- The message as the specification words it: the two strings between double
quotes, each of them unchanged. -/
def literalBody (u p : Str) : Str :=
  [0x22] ++ u ++ ascii "\" no longer has \"" ++ p ++ [0x22]

/-- Flag values of a sample run. -/
def sampleFlags : Flags :=
  { pageToCheck := ascii "https://example.com",
    matchPhrase := ascii "Hello World",
    to_ := ascii "503-123-4567",
    from_ := ascii "503-765-4321",
    frequency := 60,
    dryRun := false }

/-- A response with the given status code, status text and body, read and
closed without error. -/
def sampleResponse (code : Int) (status body : Str) : Response :=
  { StatusCode := code, Status := status, bodyData := body,
    bodyReadErr := none, bodyCloseErr := none }

/-- Credentials of a sample run. -/
def sampleEnviron : Environ :=
  { TWILIO_ACCOUNT_SID := some (ascii "AC123"), TWILIO_AUTH_TOKEN := some (ascii "secret") }

/-- Command line of a sample run with the given `-frequency` and `-dryrun`. -/
def sampleArgs (frequency : Option Int) (dryrun : Option Bool) : Args :=
  { url := some (ascii "https://example.com"),
    phrase := some (ascii "Hello World"),
    to_ := some (ascii "503-123-4567"),
    from_ := some (ascii "503-765-4321"),
    frequency := frequency,
    dryrun := dryrun }

/-- A world in which every fetch of the page gives status 200 with the given
body and every call of the messaging API gives the given status code. -/
def sampleWorld (body : Str) (smsCode : Int) : World :=
  { get := fun _ => .ok (sampleResponse 200 (ascii "200 OK") body),
    post := fun _ =>
      { newRequestErr := none,
        doResult := .ok (sampleResponse smsCode (ascii "status") (ascii "reply")) } }

/-- One more round after an outcome: a run that is over stays as it is. -/
def stepOutcome (printTable : Nat → Bool) (f : Flags) (twilioAccountSID twilioAuthToken : Str)
    (w : World) : Outcome → Outcome
  | .running s =>
    match loopBody printTable f twilioAccountSID twilioAuthToken w s with
    | .next s1 => .running s1
    | .done s1 => .returned s1
  | o => o

/-! ## Substring search -/

theorem hasPrefix_iff (s p : Str) : hasPrefix s p = true ↔ ∃ t, s = p ++ t := by
  induction p generalizing s with
  | nil => cases s <;> simp [hasPrefix]
  | cons b p ih =>
    cases s with
    | nil => simp [hasPrefix]
    | cons a s =>
      simp only [hasPrefix, Bool.and_eq_true, beq_iff_eq, ih, List.cons_append, List.cons.injEq]
      constructor
      · rintro ⟨h, t, ht⟩
        exact ⟨t, h, ht⟩
      · rintro ⟨t, h, ht⟩
        exact ⟨h, t, ht⟩

theorem occursIn_nil_right (p : Str) : OccursIn p [] ↔ p = [] := by
  constructor
  · rintro ⟨b, a, h⟩
    have h1 := congrArg List.length h
    simp only [List.length_nil, List.length_append] at h1
    exact List.length_eq_zero.mp (by omega)
  · rintro rfl
    exact ⟨[], [], rfl⟩

theorem occursIn_cons (p : Str) (a : Byte) (s : Str) :
    OccursIn p (a :: s) ↔ hasPrefix (a :: s) p = true ∨ OccursIn p s := by
  rw [hasPrefix_iff]
  constructor
  · rintro ⟨before, after, h⟩
    cases before with
    | nil => exact Or.inl ⟨after, by simpa using h⟩
    | cons c before =>
      simp only [List.cons_append, List.cons.injEq] at h
      exact Or.inr ⟨before, after, h.2⟩
  · rintro (⟨t, h⟩ | ⟨before, after, h⟩)
    · exact ⟨[], t, by simpa using h⟩
    · exact ⟨a :: before, after, by simp [h]⟩

theorem indexFrom_nonneg_iff (s p : Str) (k : Nat) : 0 ≤ indexFrom s p k ↔ OccursIn p s := by
  induction s generalizing k with
  | nil =>
    rw [occursIn_nil_right]
    by_cases hp : p = [] <;> simp [indexFrom, hp]
  | cons a s ih =>
    rw [occursIn_cons]
    by_cases hp : hasPrefix (a :: s) p = true
    · simp [indexFrom, hp]
    · simp [indexFrom, hp, ih]

theorem stringsContains_iff (s p : Str) : stringsContains s p = true ↔ OccursIn p s := by
  simp [stringsContains, stringsIndex, indexFrom_nonneg_iff]

/-! ## Decimal and quoted output -/

theorem byte_val (n : Nat) (h : n < 256) : (byte n).val = n := by
  simp [byte, Nat.mod_eq_of_lt h]

theorem byte_val_self (b : Byte) : byte b.val = b := by
  apply Fin.ext
  simp [byte, Nat.mod_eq_of_lt b.isLt]

theorem foldl_digitsAux (fuel n : Nat) (acc : Str) (h : n < fuel) :
    (digitsAux fuel n acc).foldl (fun a b => 10 * a + (b.val - 48)) 0 =
      acc.foldl (fun a b => 10 * a + (b.val - 48)) n := by
  induction fuel generalizing n acc with
  | zero => omega
  | succ fuel ih =>
    unfold digitsAux
    split
    · rename_i hn
      simp [byte_val (48 + n) (by omega)]
    · rename_i hn
      rw [ih (n / 10) _ (by omega)]
      simp only [List.foldl_cons]
      rw [byte_val (48 + n % 10) (by omega)]
      congr 1
      omega

theorem decimalValue_fmtNat (n : Nat) : decimalValue (fmtNat n) = n := by
  simp [decimalValue, fmtNat, foldl_digitsAux (n + 1) n [] (by omega)]

theorem appendEscapedRune_plain (printTable : Nat → Bool) (b : Byte) (h : plainByte b) :
    appendEscapedRune printTable b.val = [b] := by
  obtain ⟨h1, h2, h3, h4⟩ := h
  have hp : isPrint printTable b.val = true := by
    unfold isPrint
    rw [if_pos (by omega), if_pos ⟨h1, h2⟩]
  unfold appendEscapedRune
  rw [if_neg (by omega), if_pos hp]
  unfold appendRune
  rw [if_pos (by omega), byte_val_self]

theorem quoteLoop_plain (printTable : Nat → Bool) (fuel : Nat) (s : Str)
    (hf : s.length ≤ fuel) (h : ∀ b ∈ s, plainByte b) : quoteLoop printTable fuel s = s := by
  induction fuel generalizing s with
  | zero =>
    have : s = [] := List.length_eq_zero.mp (by omega)
    subst this
    rfl
  | succ fuel ih =>
    cases s with
    | nil => rfl
    | cons s0 t =>
      have h0 : plainByte s0 := h s0 (by simp)
      have hlt : ¬ s0.val ≥ 0x80 := by
        have := h0.2.1
        omega
      have hne : ¬ (True ∧ s0.val = RuneError) := by
        have := h0.2.1
        unfold RuneError
        omega
      simp only [quoteLoop, if_neg hlt, List.drop_one, List.tail_cons]
      rw [appendEscapedRune_plain printTable s0 h0,
        ih t (by simpa using hf) (fun b hb => h b (by simp [hb]))]
      simp only [true_and] at hne ⊢
      rw [if_neg hne]
      rfl

theorem strconvQuote_plain (printTable : Nat → Bool) (s : Str) (h : ∀ b ∈ s, plainByte b) :
    strconvQuote printTable s = [0x22] ++ s ++ [0x22] := by
  unfold strconvQuote
  rw [quoteLoop_plain printTable s.length s (le_refl _) h]

theorem sprintfNoLongerHas_plain (printTable : Nat → Bool) (u p : Str)
    (hu : ∀ b ∈ u, plainByte b) (hp : ∀ b ∈ p, plainByte b) :
    sprintfNoLongerHas printTable u p = literalBody u p := by
  have hlit : ascii "\" no longer has \"" = [0x22] ++ ascii " no longer has " ++ [0x22] := by
    decide
  unfold sprintfNoLongerHas literalBody
  rw [strconvQuote_plain printTable u hu, strconvQuote_plain printTable p hp, hlit]
  simp only [List.append_assoc]

/-! ## checkPage and notify -/

/-- C1: when the GET succeeds with status 200 and the body is read without
error, `checkPage` returns `(present, nil)`, and `present` is true exactly when
the phrase occurs in the body as a contiguous run of bytes. -/
theorem checkPage_present_iff_occurs (f : Flags) (resp : Response)
    (hstatus : resp.StatusCode = 200) (hread : resp.bodyReadErr = none) :
    ∃ present : Bool, (checkPage f (.ok resp)).1 = (present, none) ∧
      (present = true ↔ OccursIn f.matchPhrase resp.bodyData) := by
  refine ⟨stringsContains resp.bodyData f.matchPhrase, ?_, stringsContains_iff _ _⟩
  simp [checkPage, hstatus, hread]

theorem checkPage_present_iff_occurs_witness :
    (sampleResponse 200 (ascii "200 OK") (ascii "<html>Hello World</html>")).StatusCode = 200 ∧
    ∃ present : Bool,
      (checkPage sampleFlags
        (.ok (sampleResponse 200 (ascii "200 OK") (ascii "<html>Hello World</html>")))).1 =
          (present, none) ∧
      (present = true ↔ OccursIn sampleFlags.matchPhrase
        (sampleResponse 200 (ascii "200 OK") (ascii "<html>Hello World</html>")).bodyData) :=
  ⟨rfl, checkPage_present_iff_occurs sampleFlags
    (sampleResponse 200 (ascii "200 OK") (ascii "<html>Hello World</html>")) rfl rfl⟩

/-- C2: for a response whose status code is not 200, whatever its body,
`checkPage` returns `false` and an error whose text is the status text of the
response; for a transport failure it returns `false` and the transport error. -/
theorem checkPage_failure (f : Flags) :
    (∀ resp : Response, resp.StatusCode ≠ 200 →
      ∃ e : GoError, (checkPage f (.ok resp)).1 = (false, some e) ∧ e.Error = resp.Status) ∧
    (∀ err : GoError, (checkPage f (.error err)).1 = (false, some err)) := by
  constructor
  · intro resp h
    exact ⟨GoError.errorsNew resp.Status, by simp [checkPage, h], rfl⟩
  · intro err
    rfl

theorem checkPage_failure_witness :
    (sampleResponse 404 (ascii "404 Not Found") (ascii "<html>Hello World</html>")).StatusCode
      ≠ 200 ∧
    ∃ e : GoError,
      (checkPage sampleFlags
        (.ok (sampleResponse 404 (ascii "404 Not Found") (ascii "<html>Hello World</html>")))).1
          = (false, some e) ∧
      e.Error = ascii "404 Not Found" :=
  ⟨by decide, (checkPage_failure sampleFlags).1
    (sampleResponse 404 (ascii "404 Not Found") (ascii "<html>Hello World</html>"))
    (by decide)⟩

/-- C3: when the request is built and the transport succeeds, `notify` returns
nil exactly when the status code is 201; for any other status code it returns
an error whose text is the status code in decimal, a colon, a space and the
bytes read from the response body. -/
theorem notify_nil_iff_created (printTable : Nat → Bool) (f : Flags) (sid tok : Str)
    (w : NotifyWorld) (resp : Response)
    (hreq : w.newRequestErr = none) (hdo : w.doResult = .ok resp) :
    ((notify printTable f sid tok w).1 = none ↔ resp.StatusCode = 201) ∧
    (resp.StatusCode ≠ 201 →
      ∃ e : GoError, (notify printTable f sid tok w).1 = some e ∧
        e.Error = fmtD resp.StatusCode ++ ascii ": " ++ resp.bodyData) ∧
    (0 ≤ resp.StatusCode → decimalValue (fmtD resp.StatusCode) = resp.StatusCode.toNat) := by
  refine ⟨?_, ?_, ?_⟩
  · by_cases h : resp.StatusCode = 201 <;> simp [notify, hreq, hdo, h]
  · intro h
    exact ⟨GoError.fmtErrorf (fmtD resp.StatusCode ++ ascii ": " ++ resp.bodyData),
      by simp [notify, hreq, hdo, h], rfl⟩
  · intro h
    have hn : ¬ resp.StatusCode < 0 := by omega
    rw [fmtD, if_neg hn, decimalValue_fmtNat]
    omega

theorem notify_nil_iff_created_witness :
    (sampleResponse 401 (ascii "401 Unauthorized") (ascii "denied")).StatusCode ≠ 201 ∧
    ∃ e : GoError,
      (notify (fun _ => false) sampleFlags (ascii "AC123") (ascii "secret")
        { newRequestErr := none,
          doResult := .ok (sampleResponse 401 (ascii "401 Unauthorized") (ascii "denied")) }).1
        = some e ∧
      e.Error = ascii "401: denied" := by
  refine ⟨by decide, ?_⟩
  obtain ⟨e, he, ht⟩ := (notify_nil_iff_created (fun _ => false) sampleFlags (ascii "AC123")
    (ascii "secret")
    { newRequestErr := none,
      doResult := .ok (sampleResponse 401 (ascii "401 Unauthorized") (ascii "denied")) }
    (sampleResponse 401 (ascii "401 Unauthorized") (ascii "denied")) rfl rfl).2.1 (by decide)
  refine ⟨e, he, ?_⟩
  rw [ht]
  decide

theorem notify_formBody (printTable : Nat → Bool) (f : Flags) (sid tok : Str)
    (w : NotifyWorld) (req : PostRequest)
    (hmem : Event.httpDo req ∈ (notify printTable f sid tok w).2) :
    req.formBody = notifyBody printTable f := by
  have hclose : ∀ (what : Str) (r : Response), Event.httpDo req ∉ closeBody what r := by
    intro what r
    unfold closeBody
    cases r.bodyCloseErr <;> simp
  unfold notify at hmem
  cases hreq : w.newRequestErr with
  | some err => simp [hreq] at hmem
  | none =>
    cases hdo : w.doResult with
    | error err =>
      simp [hreq, hdo] at hmem
      rw [hmem]
    | ok resp =>
      by_cases hc : resp.StatusCode = 201 <;>
        simp [hreq, hdo, hc, hclose] at hmem <;>
        rw [hmem]

/-- C4 (as amended): for every URL and every phrase, the value of the form
field `Body` of every request `notify` sends is the Go-quoted form (`%q`) of
the URL, the text ` no longer has `, and the Go-quoted form of the phrase; when
the URL and the phrase are made of printable ASCII characters other than the
double quote and the backslash, it is the URL and the phrase unchanged between
double quotes. -/
theorem notifyBody_quoted (printTable : Nat → Bool) (f : Flags) :
    notifyBody printTable f =
      strconvQuote printTable f.pageToCheck ++ ascii " no longer has " ++
        strconvQuote printTable f.matchPhrase ∧
    (∀ (sid tok : Str) (w : NotifyWorld) (req : PostRequest),
      Event.httpDo req ∈ (notify printTable f sid tok w).2 →
        req.formBody =
          strconvQuote printTable f.pageToCheck ++ ascii " no longer has " ++
            strconvQuote printTable f.matchPhrase) ∧
    ((∀ b ∈ f.pageToCheck, plainByte b) → (∀ b ∈ f.matchPhrase, plainByte b) →
      notifyBody printTable f = literalBody f.pageToCheck f.matchPhrase ∧
      ∀ (sid tok : Str) (w : NotifyWorld) (req : PostRequest),
        Event.httpDo req ∈ (notify printTable f sid tok w).2 →
          req.formBody = literalBody f.pageToCheck f.matchPhrase) := by
  refine ⟨rfl, ?_, ?_⟩
  · intro sid tok w req hmem
    rw [notify_formBody printTable f sid tok w req hmem]
    rfl
  · intro hu hp
    have hb := sprintfNoLongerHas_plain printTable f.pageToCheck f.matchPhrase hu hp
    refine ⟨hb, ?_⟩
    intro sid tok w req hmem
    rw [notify_formBody printTable f sid tok w req hmem]
    exact hb

set_option maxRecDepth 8192 in
theorem notifyBody_quoted_witness :
    (∀ b ∈ sampleFlags.pageToCheck, plainByte b) ∧
    (∀ b ∈ sampleFlags.matchPhrase, plainByte b) ∧
    notifyBody (fun _ => false) sampleFlags =
      ascii "\"https://example.com\" no longer has \"Hello World\"" := by
  refine ⟨by decide, by decide, ?_⟩
  rw [((notifyBody_quoted (fun _ => false) sampleFlags).2.2 (by decide) (by decide)).1]
  decide

/-- C4 (as stated) fails: a double quote in the phrase is sent with a
backslash before it. -/
theorem notifyBody_escapes_quote :
    notifyBody (fun _ => false) { sampleFlags with matchPhrase := ascii "say \"hi\"" } ≠
        literalBody (ascii "https://example.com") (ascii "say \"hi\"") ∧
    notifyBody (fun _ => false) { sampleFlags with matchPhrase := ascii "say \"hi\"" } =
        ascii "\"https://example.com\" no longer has \"say \\\"hi\\\"\"" := by
  constructor <;> decide

/-! ## Startup -/

theorem startup_error (f : Flags) (env : Environ) (code : Nat) (tr : List Event)
    (h : startup f env = .error (code, tr)) :
    code = 1 ∧ ∀ e ∈ tr, e.isHttpGet = false := by
  unfold startup at h
  simp only at h
  repeat' split at h
  all_goals
    first
    | (injection h with h
       injection h with h1 h2
       subst h1 h2
       exact ⟨rfl, by simp [Event.isHttpGet]⟩)
    | exact absurd h (by simp)

theorem startup_error_iff (f : Flags) (env : Environ) :
    (∃ tr, startup f env = .error (1, tr)) ↔
      (f.pageToCheck = [] ∨ f.matchPhrase = [] ∨ f.to_ = [] ∨ f.from_ = [] ∨
        (f.dryRun = false ∧
          (Getenv env.TWILIO_ACCOUNT_SID = [] ∨ Getenv env.TWILIO_AUTH_TOKEN = []))) := by
  unfold startup
  by_cases h1 : Getenv env.TWILIO_ACCOUNT_SID = [] <;>
  by_cases h2 : Getenv env.TWILIO_AUTH_TOKEN = [] <;>
  by_cases hd : f.dryRun = false <;>
  by_cases h3 : f.pageToCheck = [] <;>
  by_cases h4 : f.matchPhrase = [] <;>
  by_cases h5 : f.to_ = [] <;>
  by_cases h6 : f.from_ = [] <;>
  simp [h1, h2, hd, h3, h4, h5, h6]

theorem runLoop_ne_exited (printTable : Nat → Bool) (f : Flags) (sid tok : Str) (w : World)
    (n : Nat) (s : LoopState) (code : Nat) (tr : List Event) :
    runLoop printTable f sid tok w n s ≠ .exited code tr := by
  induction n generalizing s with
  | zero => simp [runLoop]
  | succ n ih =>
    unfold runLoop
    split
    · exact ih _
    · simp

/-- C5: the program exits with code 1 exactly when one of url, phrase, to,
from is empty, or dry-run is disabled and one of the two credentials is empty;
every exit with a code happens with code 1 and before any fetch of the page.
In particular an empty credential with dry-run enabled is no cause of exit. -/
theorem main_exits_one_iff (printTable : Nat → Bool) (a : Args) (env : Environ) (w : World)
    (ticks : Nat) :
    ((∃ tr, main printTable a env w ticks = .exited 1 tr) ↔
      ((flagParse a).pageToCheck = [] ∨ (flagParse a).matchPhrase = [] ∨
        (flagParse a).to_ = [] ∨ (flagParse a).from_ = [] ∨
        ((flagParse a).dryRun = false ∧
          (Getenv env.TWILIO_ACCOUNT_SID = [] ∨ Getenv env.TWILIO_AUTH_TOKEN = [])))) ∧
    (∀ code tr, main printTable a env w ticks = .exited code tr →
      code = 1 ∧ ∀ e ∈ tr, e.isHttpGet = false) := by
  constructor
  · rw [← startup_error_iff]
    unfold main
    cases hs : startup (flagParse a) env with
    | error p =>
      obtain ⟨c, tr0⟩ := p
      simp [hs]
    | ok p =>
      obtain ⟨sid, tok⟩ := p
      simp [hs, runLoop_ne_exited]
  · intro code tr h
    unfold main at h
    cases hs : startup (flagParse a) env with
    | error p =>
      obtain ⟨c, tr0⟩ := p
      simp only [hs, Outcome.exited.injEq] at h
      obtain ⟨rfl, rfl⟩ := h
      exact startup_error _ _ _ _ hs
    | ok p =>
      obtain ⟨sid, tok⟩ := p
      simp only [hs] at h
      exact absurd h (runLoop_ne_exited _ _ _ _ _ _ _ _ _)

theorem main_exits_one_iff_witness :
    ¬ ∃ tr, main (fun _ => false) (sampleArgs none (some true))
      { TWILIO_ACCOUNT_SID := none, TWILIO_AUTH_TOKEN := none }
      (sampleWorld (ascii "<html>Hello World</html>") 201) 3 = .exited 1 tr := by
  intro h
  have hc := (main_exits_one_iff (fun _ => false) (sampleArgs none (some true))
    { TWILIO_ACCOUNT_SID := none, TWILIO_AUTH_TOKEN := none }
    (sampleWorld (ascii "<html>Hello World</html>") 201) 3).1.mp h
  revert hc
  decide

/-! ## The loop -/

theorem validated_iff (f : Flags) (env : Environ) :
    validated f env = true ↔ ∃ sid tok, startup f env = .ok (sid, tok) := by
  unfold validated
  cases hs : startup f env with
  | error p => simp
  | ok p =>
    obtain ⟨sid, tok⟩ := p
    simp

theorem main_of_validated (printTable : Nat → Bool) (a : Args) (env : Environ) (w : World)
    (h : validated (flagParse a) env = true) :
    ∃ sid tok, ∀ ticks, main printTable a env w ticks =
      runLoop printTable (flagParse a) sid tok w ticks initialState := by
  obtain ⟨sid, tok, hs⟩ := (validated_iff _ _).mp h
  exact ⟨sid, tok, fun ticks => by simp [main, hs]⟩

theorem loopBody_of_error (printTable : Nat → Bool) (f : Flags) (sid tok : Str) (w : World)
    (s : LoopState) (b : Bool) (e : GoError)
    (h : (checkPage f (w.get s.checks)).1 = (b, some e)) :
    ∃ s1, loopBody printTable f sid tok w s = .next s1 ∧ s1.checks = s.checks + 1 ∧
      s1.notifies = s.notifies ∧ s1.i = (s.i + 1) % 2 ^ 64 := by
  unfold loopBody
  simp only [h]
  exact ⟨_, rfl, rfl, rfl, rfl⟩

theorem loopBody_of_present (printTable : Nat → Bool) (f : Flags) (sid tok : Str) (w : World)
    (s : LoopState) (h : (checkPage f (w.get s.checks)).1 = (true, none)) :
    ∃ s1, loopBody printTable f sid tok w s = .next s1 ∧ s1.checks = s.checks + 1 ∧
      s1.notifies = s.notifies ∧ s1.i = (s.i + 1) % 2 ^ 64 := by
  unfold loopBody
  simp only [h]
  exact ⟨_, rfl, rfl, rfl, rfl⟩

theorem loopBody_of_quiet (printTable : Nat → Bool) (f : Flags) (sid tok : Str) (w : World)
    (s : LoopState) (h : triggers f w s.checks = false) :
    ∃ s1, loopBody printTable f sid tok w s = .next s1 ∧ s1.checks = s.checks + 1 ∧
      s1.notifies = s.notifies ∧ s1.i = (s.i + 1) % 2 ^ 64 := by
  unfold triggers at h
  rcases hr : (checkPage f (w.get s.checks)).1 with ⟨b, _ | e⟩
  · cases b
    · simp [hr] at h
    · exact loopBody_of_present printTable f sid tok w s hr
  · exact loopBody_of_error printTable f sid tok w s b e hr

theorem loopBody_of_absent_dry (printTable : Nat → Bool) (f : Flags) (sid tok : Str) (w : World)
    (s : LoopState) (h : (checkPage f (w.get s.checks)).1 = (false, none))
    (hd : f.dryRun = true) :
    loopBody printTable f sid tok w s = .done
      { i := s.i, checks := s.checks + 1, notifies := s.notifies,
        trace := (if s.i ≠ 0 then s.trace ++ [Event.timerWait (checkFrequency f)] else s.trace)
          ++ [Event.logInfo (ascii "checking...")] ++ (checkPage f (w.get s.checks)).2 ++
          [Event.logInfo (sprintfNoLongerHas printTable f.pageToCheck f.matchPhrase)] } := by
  unfold loopBody
  simp only [h, hd]
  rfl

theorem loopBody_of_absent_fail (printTable : Nat → Bool) (f : Flags) (sid tok : Str) (w : World)
    (s : LoopState) (e : GoError) (h : (checkPage f (w.get s.checks)).1 = (false, none))
    (hd : f.dryRun = false) (hn : (notify printTable f sid tok (w.post s.notifies)).1 = some e) :
    ∃ s1, loopBody printTable f sid tok w s = .next s1 ∧ s1.checks = s.checks + 1 ∧
      s1.notifies = s.notifies + 1 ∧ s1.i = (s.i + 1) % 2 ^ 64 := by
  unfold loopBody
  simp only [h, hd, hn]
  exact ⟨_, rfl, rfl, rfl, rfl⟩

theorem loopBody_of_absent_sent (printTable : Nat → Bool) (f : Flags) (sid tok : Str) (w : World)
    (s : LoopState) (h : (checkPage f (w.get s.checks)).1 = (false, none))
    (hd : f.dryRun = false) (hn : (notify printTable f sid tok (w.post s.notifies)).1 = none) :
    ∃ s1, loopBody printTable f sid tok w s = .done s1 ∧ s1.checks = s.checks + 1 ∧
      s1.notifies = s.notifies + 1 := by
  unfold loopBody
  simp only [h, hd, hn]
  exact ⟨_, rfl, rfl, rfl⟩

theorem runLoop_succ (printTable : Nat → Bool) (f : Flags) (sid tok : Str) (w : World)
    (n : Nat) (s : LoopState) :
    runLoop printTable f sid tok w (n + 1) s =
      stepOutcome printTable f sid tok w (runLoop printTable f sid tok w n s) := by
  induction n generalizing s with
  | zero =>
    simp only [runLoop, stepOutcome]
  | succ n ih =>
    rw [runLoop]
    cases hb : loopBody printTable f sid tok w s with
    | next s1 =>
      simp only
      rw [ih s1]
      conv_rhs => rw [runLoop, hb]
    | done s1 =>
      simp only
      conv_rhs => rw [runLoop, hb]
      rfl

theorem runLoop_returned_stable (printTable : Nat → Bool) (f : Flags) (sid tok : Str)
    (w : World) (m n : Nat) (s s1 : LoopState) (hmn : m ≤ n)
    (h : runLoop printTable f sid tok w m s = .returned s1) :
    runLoop printTable f sid tok w n s = .returned s1 := by
  induction n with
  | zero =>
    have : m = 0 := by omega
    subst this
    exact h
  | succ n ih =>
    by_cases hm : m = n + 1
    · subst hm
      exact h
    · rw [runLoop_succ, ih (by omega)]
      rfl

theorem runLoop_quiet (printTable : Nat → Bool) (f : Flags) (sid tok : Str) (w : World)
    (n : Nat) (h : ∀ j < n, triggers f w j = false) :
    ∃ s, runLoop printTable f sid tok w n initialState = .running s ∧ s.checks = n ∧
      s.notifies = 0 := by
  induction n with
  | zero => exact ⟨initialState, rfl, rfl, rfl⟩
  | succ n ih =>
    obtain ⟨s, hs, hc, hn⟩ := ih (fun j hj => h j (by omega))
    obtain ⟨s1, h1, hc1, hn1, _⟩ :=
      loopBody_of_quiet printTable f sid tok w s (by rw [hc]; exact h n (by omega))
    refine ⟨s1, ?_, by omega, by omega⟩
    rw [runLoop_succ, hs]
    simp only [stepOutcome, h1]

/-! ## Events of a round -/

theorem closeBody_events (what : Str) (r : Response) :
    ∀ e ∈ closeBody what r, e.isTimerWait = false ∧ e.isHttpDo = false := by
  intro e he
  unfold closeBody at he
  cases hc : r.bodyCloseErr with
  | none => simp [hc] at he
  | some err =>
    simp only [hc, List.mem_singleton] at he
    subst he
    exact ⟨rfl, rfl⟩

theorem checkPage_events (f : Flags) (g : Except GoError Response) :
    ∀ e ∈ (checkPage f g).2, e.isTimerWait = false ∧ e.isHttpDo = false := by
  intro e he
  have hget : (Event.httpGet f.pageToCheck).isTimerWait = false ∧
      (Event.httpGet f.pageToCheck).isHttpDo = false := ⟨rfl, rfl⟩
  unfold checkPage at he
  cases g with
  | error err =>
    simp only [List.mem_singleton] at he
    subst he
    exact hget
  | ok resp =>
    simp only at he
    split at he
    · simp only [List.singleton_append, List.mem_cons] at he
      rcases he with rfl | he
      · exact hget
      · exact closeBody_events _ _ e he
    · split at he <;>
      · simp only [List.singleton_append, List.mem_cons] at he
        rcases he with rfl | he
        · exact hget
        · exact closeBody_events _ _ e he

theorem notify_events (printTable : Nat → Bool) (f : Flags) (sid tok : Str) (w : NotifyWorld) :
    ∀ e ∈ (notify printTable f sid tok w).2, e.isTimerWait = false := by
  intro e he
  unfold notify at he
  simp only at he
  split at he
  · simp at he
  · split at he
    · simp only [List.mem_singleton] at he
      subst he
      rfl
    · split at he <;>
      · simp only [List.singleton_append, List.mem_cons] at he
        rcases he with rfl | he
        · rfl
        · exact (closeBody_events _ _ e he).1

theorem timerWait_of_isTimerWait_false (tr : List Event) (d : Int)
    (h : ∀ e ∈ tr, e.isTimerWait = false) : Event.timerWait d ∉ tr := by
  intro hm
  have := h _ hm
  simp [Event.isTimerWait] at this

theorem loopBody_timer (printTable : Nat → Bool) (f : Flags) (sid tok : Str) (w : World)
    (s s1 : LoopState)
    (hinv : ∀ d, Event.timerWait d ∈ s.trace → d = checkFrequency f)
    (h : loopBody printTable f sid tok w s = .next s1 ∨
      loopBody printTable f sid tok w s = .done s1) :
    ∀ d, Event.timerWait d ∈ s1.trace → d = checkFrequency f := by
  intro d hd
  have hcp := timerWait_of_isTimerWait_false _ d
    (fun e he => (checkPage_events f (w.get s.checks) e he).1)
  have hno := timerWait_of_isTimerWait_false _ d
    (notify_events printTable f sid tok (w.post s.notifies))
  have hpre : Event.timerWait d ∈
      (if s.i ≠ 0 then s.trace ++ [Event.timerWait (checkFrequency f)] else s.trace) →
      d = checkFrequency f := by
    intro hm
    split at hm
    · simp only [List.mem_append, List.mem_singleton, Event.timerWait.injEq] at hm
      rcases hm with hm | hm
      · exact hinv d hm
      · exact hm
    · exact hinv d hm
  unfold loopBody at h
  simp only at h
  split at h
  · rcases h with h | h
    · cases h
      simp only [List.mem_append, List.mem_singleton, reduceCtorEq, or_false] at hd
      rcases hd with hd | hd
      · exact hpre hd
      · exact absurd hd hcp
    · exact absurd h (by simp)
  · rcases h with h | h
    · cases h
      simp only [List.mem_append, List.mem_singleton, reduceCtorEq, or_false] at hd
      rcases hd with hd | hd
      · exact hpre hd
      · exact absurd hd hcp
    · exact absurd h (by simp)
  · split at h
    · split at h
      · rcases h with h | h
        · cases h
          simp only [List.mem_append, List.mem_singleton, reduceCtorEq, or_false] at hd
          rcases hd with (hd | hd) | hd
          · exact hpre hd
          · exact absurd hd hcp
          · exact absurd hd hno
        · exact absurd h (by simp)
      · rcases h with h | h
        · exact absurd h (by simp)
        · cases h
          simp only [List.mem_append, List.mem_singleton, reduceCtorEq, or_false] at hd
          rcases hd with (hd | hd) | hd
          · exact hpre hd
          · exact absurd hd hcp
          · exact absurd hd hno
    · rcases h with h | h
      · exact absurd h (by simp)
      · cases h
        simp only [List.mem_append, List.mem_singleton, reduceCtorEq, or_false] at hd
        rcases hd with hd | hd
        · exact hpre hd
        · exact absurd hd hcp

theorem runLoop_timer (printTable : Nat → Bool) (f : Flags) (sid tok : Str) (w : World)
    (n : Nat) (s s1 : LoopState)
    (hinv : ∀ d, Event.timerWait d ∈ s.trace → d = checkFrequency f)
    (h : runLoop printTable f sid tok w n s = .running s1 ∨
      runLoop printTable f sid tok w n s = .returned s1) :
    ∀ d, Event.timerWait d ∈ s1.trace → d = checkFrequency f := by
  induction n generalizing s with
  | zero =>
    simp only [runLoop, Outcome.running.injEq, reduceCtorEq, or_false] at h
    subst h
    exact hinv
  | succ n ih =>
    rw [runLoop] at h
    cases hb : loopBody printTable f sid tok w s with
    | next s2 =>
      simp only [hb] at h
      exact ih s2 (loopBody_timer printTable f sid tok w s s2 hinv (Or.inl hb)) h
    | done s2 =>
      simp only [hb, reduceCtorEq, false_or, Outcome.returned.injEq] at h
      subst h
      exact loopBody_timer printTable f sid tok w s s2 hinv (Or.inr hb)

/-! ## The poll interval -/

theorem wrapInt64_id (x : Int) (h1 : -(2 ^ 63) ≤ x) (h2 : x < 2 ^ 63) : wrapInt64 x = x := by
  unfold wrapInt64
  omega

/-- C6 (as amended): startup validation does not look at `-frequency`; the
interval of the timer is the `-frequency` value in seconds, as given (positive
exactly when the value is positive), it is 60 seconds when the flag is not
given, and every timer wait of the loop lasts that interval. -/
theorem checkFrequency_as_given (printTable : Nat → Bool) (a : Args) (env : Environ)
    (w : World) :
    (∀ fr : Option Int,
      validated (flagParse { a with frequency := fr }) env = validated (flagParse a) env) ∧
    (a.frequency = none → checkFrequency (flagParse a) = 60 * timeSecond) ∧
    (∀ n : Int, a.frequency = some n → -9223372036 ≤ n → n ≤ 9223372036 →
      checkFrequency (flagParse a) = n * timeSecond ∧
        (0 < checkFrequency (flagParse a) ↔ 0 < n)) ∧
    (∀ ticks s, (main printTable a env w ticks = .running s ∨
        main printTable a env w ticks = .returned s) →
      ∀ d, Event.timerWait d ∈ s.trace → d = checkFrequency (flagParse a)) := by
  refine ⟨?_, ?_, ?_, ?_⟩
  · intro fr
    simp [validated, startup, flagParse]
  · intro h
    simp only [checkFrequency, flagParse, h, Option.getD_none, timeSecond]
    decide
  · intro n h hlo hhi
    have hcf : checkFrequency (flagParse a) = n * timeSecond := by
      simp only [checkFrequency, flagParse, h, Option.getD_some, timeSecond]
      rw [wrapInt64_id n (by omega) (by omega), wrapInt64_id _ (by omega) (by omega)]
      omega
    refine ⟨hcf, ?_⟩
    rw [hcf, timeSecond]
    omega
  · intro ticks s h
    unfold main at h
    cases hs : startup (flagParse a) env with
    | error p =>
      obtain ⟨c, tr0⟩ := p
      simp [hs] at h
    | ok p =>
      obtain ⟨sid, tok⟩ := p
      simp only [hs] at h
      exact runLoop_timer printTable (flagParse a) sid tok w ticks initialState s
        (by simp [initialState]) h

theorem checkFrequency_as_given_witness :
    checkFrequency (flagParse (sampleArgs (some 30) none)) = 30 * timeSecond ∧
    (0 < checkFrequency (flagParse (sampleArgs (some 30) none)) ↔ (0 : Int) < 30) :=
  (checkFrequency_as_given (fun _ => false) (sampleArgs (some 30) none) sampleEnviron
    (sampleWorld (ascii "<html>Hello World</html>") 201)).2.2.1 30 rfl (by decide) (by decide)

/-- C6 (as stated) fails: with `-frequency 0` the configuration passes startup
validation, the loop is reached and its timer waits zero seconds; with
`-frequency -5` it passes as well and the interval is negative. -/
theorem frequency_zero_reaches_loop :
    validated (flagParse (sampleArgs (some 0) none)) sampleEnviron = true ∧
    ¬ 0 < checkFrequency (flagParse (sampleArgs (some 0) none)) ∧
    (∃ s, main (fun _ => false) (sampleArgs (some 0) none) sampleEnviron
        (sampleWorld (ascii "<html>Hello World</html>") 201) 2 = .running s ∧
      s.checks = 2 ∧ Event.timerWait 0 ∈ s.trace) ∧
    validated (flagParse (sampleArgs (some (-5)) none)) sampleEnviron = true ∧
    checkFrequency (flagParse (sampleArgs (some (-5)) none)) = -5000000000 := by
  refine ⟨by decide, by decide, ⟨_, rfl, by decide, by decide⟩, by decide, by decide⟩

/-! ## The poller -/

theorem triggers_iff (f : Flags) (w : World) (j : Nat) :
    triggers f w j = true ↔ (checkPage f (w.get j)).1 = (false, none) := by
  simp [triggers]

theorem quietRound_iff (f : Flags) (w : World) (j : Nat) :
    quietRound f w j ↔ triggers f w j = false := by
  unfold quietRound triggers
  rcases (checkPage f (w.get j)).1 with ⟨b, _ | e⟩ <;> cases b <;> simp

theorem triggerCount_succ (f : Flags) (w : World) (n : Nat) :
    triggerCount f w (n + 1) = triggerCount f w n + (if triggers f w n = true then 1 else 0) := by
  unfold triggerCount
  rw [List.range_succ, List.filter_append, List.length_append]
  cases h : triggers f w n <;> simp [h]

theorem notify_fails (printTable : Nat → Bool) (f : Flags) (sid tok : Str) (nw : NotifyWorld)
    (h : ∀ resp, nw.newRequestErr = none → nw.doResult = .ok resp → resp.StatusCode ≠ 201) :
    ∃ e, (notify printTable f sid tok nw).1 = some e := by
  unfold notify
  cases hreq : nw.newRequestErr with
  | some err => exact ⟨err, rfl⟩
  | none =>
    cases hdo : nw.doResult with
    | error err => exact ⟨err, rfl⟩
    | ok resp =>
      have hc := h resp hreq hdo
      exact ⟨GoError.fmtErrorf (fmtD resp.StatusCode ++ ascii ": " ++ resp.bodyData),
        by simp [hc]⟩

theorem notify_sent (printTable : Nat → Bool) (f : Flags) (sid tok : Str) (nw : NotifyWorld)
    (resp : Response) (hreq : nw.newRequestErr = none) (hdo : nw.doResult = .ok resp)
    (hc : resp.StatusCode = 201) : (notify printTable f sid tok nw).1 = none := by
  simp [notify, hreq, hdo, hc]

/-- C7: with dry-run enabled, when the first check succeeds and reports the
phrase absent, the program returns in its first round: one call of `checkPage`,
no call of `notify`, no timer wait and no request to the messaging API. -/
theorem dry_run_returns_first_round (printTable : Nat → Bool) (a : Args) (env : Environ)
    (w : World) (ticks : Nat)
    (hv : validated (flagParse a) env = true)
    (hdry : (flagParse a).dryRun = true)
    (hcheck : (checkPage (flagParse a) (w.get 0)).1 = (false, none))
    (hticks : 1 ≤ ticks) :
    ∃ s, main printTable a env w ticks = .returned s ∧ s.checks = 1 ∧ s.notifies = 0 ∧
      ∀ e ∈ s.trace, e.isTimerWait = false ∧ e.isHttpDo = false := by
  obtain ⟨sid, tok, hmain⟩ := main_of_validated printTable a env w hv
  have hb := loopBody_of_absent_dry printTable (flagParse a) sid tok w initialState hcheck hdry
  have key : ∃ s1, loopBody printTable (flagParse a) sid tok w initialState = .done s1 ∧
      s1.checks = 1 ∧ s1.notifies = 0 ∧
      ∀ e ∈ s1.trace, e.isTimerWait = false ∧ e.isHttpDo = false := by
    refine ⟨_, hb, rfl, rfl, ?_⟩
    intro e he
    simp only [initialState, ne_eq, not_true_eq_false, if_false, List.nil_append,
      List.mem_append, List.mem_cons, List.mem_singleton, List.not_mem_nil, or_false] at he
    rcases he with (rfl | he) | rfl
    · exact ⟨rfl, rfl⟩
    · exact checkPage_events _ _ e he
    · exact ⟨rfl, rfl⟩
  obtain ⟨s1, h1, hc, hn, htr⟩ := key
  refine ⟨s1, ?_, hc, hn, htr⟩
  rw [hmain]
  exact runLoop_returned_stable printTable (flagParse a) sid tok w 1 ticks _ _ hticks
    (by rw [runLoop, h1])

theorem dry_run_returns_first_round_witness :
    ∃ s, main (fun _ => false) (sampleArgs none (some true))
        { TWILIO_ACCOUNT_SID := none, TWILIO_AUTH_TOKEN := none }
        (sampleWorld (ascii "<html>Goodbye</html>") 500) 1 = .returned s ∧
      s.checks = 1 ∧ s.notifies = 0 ∧
      ∀ e ∈ s.trace, e.isTimerWait = false ∧ e.isHttpDo = false :=
  dry_run_returns_first_round (fun _ => false) (sampleArgs none (some true))
    { TWILIO_ACCOUNT_SID := none, TWILIO_AUTH_TOKEN := none }
    (sampleWorld (ascii "<html>Goodbye</html>") 500) 1 (by decide) (by decide) (by decide)
    (by decide)

/-- C8: with dry-run disabled, when round `k` is the first one whose check
succeeds with the phrase absent and the messaging API answers the first call
of `notify` with status 201, the loop is still going before round `k` ends,
with no call of `notify` made, and the program returns in round `k`, with
exactly one call of `notify` over the whole run. -/
theorem notify_success_returns (printTable : Nat → Bool) (a : Args) (env : Environ)
    (w : World) (k : Nat) (resp : Response)
    (hv : validated (flagParse a) env = true)
    (hdry : (flagParse a).dryRun = false)
    (hbefore : ∀ j < k, (checkPage (flagParse a) (w.get j)).1 ≠ (false, none))
    (hk : (checkPage (flagParse a) (w.get k)).1 = (false, none))
    (hreq : (w.post 0).newRequestErr = none)
    (hdo : (w.post 0).doResult = .ok resp)
    (hcode : resp.StatusCode = 201) :
    (∀ ticks, ticks ≤ k →
      ∃ s, main printTable a env w ticks = .running s ∧ s.checks = ticks ∧ s.notifies = 0) ∧
    (∀ ticks, k < ticks →
      ∃ s, main printTable a env w ticks = .returned s ∧ s.checks = k + 1 ∧
        s.notifies = 1) := by
  obtain ⟨sid, tok, hmain⟩ := main_of_validated printTable a env w hv
  have hquiet : ∀ j < k, triggers (flagParse a) w j = false := by
    intro j hj
    have := hbefore j hj
    simpa [triggers] using this
  constructor
  · intro ticks ht
    rw [hmain]
    exact runLoop_quiet printTable (flagParse a) sid tok w ticks
      (fun j hj => hquiet j (by omega))
  · intro ticks ht
    obtain ⟨s, hs, hc, hn⟩ := runLoop_quiet printTable (flagParse a) sid tok w k hquiet
    have hsent : (notify printTable (flagParse a) sid tok (w.post s.notifies)).1 = none := by
      rw [hn]
      exact notify_sent printTable (flagParse a) sid tok (w.post 0) resp hreq hdo hcode
    obtain ⟨s1, h1, hc1, hn1⟩ := loopBody_of_absent_sent printTable (flagParse a) sid tok w s
      (by rw [hc]; exact hk) hdry hsent
    have hk1 : runLoop printTable (flagParse a) sid tok w (k + 1) initialState =
        .returned s1 := by
      rw [runLoop_succ, hs]
      simp only [stepOutcome, h1]
    refine ⟨s1, ?_, by omega, by omega⟩
    rw [hmain]
    exact runLoop_returned_stable printTable (flagParse a) sid tok w (k + 1) ticks _ _
      (by omega) hk1

theorem notify_success_returns_witness :
    ∃ s, main (fun _ => false) (sampleArgs none none) sampleEnviron
        (sampleWorld (ascii "<html>Goodbye</html>") 201) 3 = .returned s ∧
      s.checks = 0 + 1 ∧ s.notifies = 1 :=
  (notify_success_returns (fun _ => false) (sampleArgs none none) sampleEnviron
    (sampleWorld (ascii "<html>Goodbye</html>") 201) 0
    (sampleResponse 201 (ascii "status") (ascii "reply"))
    (by decide) (by decide) (fun j hj => absurd hj (Nat.not_lt_zero j)) (by decide) rfl rfl
    rfl).2 3 (by decide)

/-- C9: with dry-run disabled and a messaging API that never answers a call of
`notify` with status 201, the loop is still going after any number `n` of
rounds, and the number of calls of `notify` made in them is the number of
rounds among them whose check succeeded with the phrase absent. -/
theorem failing_notifier_keeps_going (printTable : Nat → Bool) (a : Args) (env : Environ)
    (w : World) (n : Nat)
    (hv : validated (flagParse a) env = true)
    (hdry : (flagParse a).dryRun = false)
    (hfail : ∀ j resp, (w.post j).newRequestErr = none → (w.post j).doResult = .ok resp →
      resp.StatusCode ≠ 201) :
    ∃ s, main printTable a env w n = .running s ∧ s.checks = n ∧
      s.notifies = triggerCount (flagParse a) w n := by
  obtain ⟨sid, tok, hmain⟩ := main_of_validated printTable a env w hv
  rw [hmain]
  induction n with
  | zero => exact ⟨initialState, rfl, rfl, rfl⟩
  | succ n ih =>
    obtain ⟨s, hs, hc, hn⟩ := ih
    rw [runLoop_succ, hs, triggerCount_succ]
    cases ht : triggers (flagParse a) w n with
    | false =>
      obtain ⟨s1, h1, hc1, hn1, _⟩ :=
        loopBody_of_quiet printTable (flagParse a) sid tok w s (by rw [hc]; exact ht)
      refine ⟨s1, by simp only [stepOutcome, h1], by omega, ?_⟩
      simp only [Bool.false_eq_true, if_false]
      omega
    | true =>
      obtain ⟨e, he⟩ := notify_fails printTable (flagParse a) sid tok (w.post s.notifies)
        (hfail s.notifies)
      obtain ⟨s1, h1, hc1, hn1, _⟩ :=
        loopBody_of_absent_fail printTable (flagParse a) sid tok w s e
          (by rw [hc]; exact (triggers_iff _ _ _).mp ht) hdry he
      refine ⟨s1, by simp only [stepOutcome, h1], by omega, ?_⟩
      simp only [if_true]
      omega

theorem failing_notifier_keeps_going_witness :
    ∃ s, main (fun _ => false) (sampleArgs none none) sampleEnviron
        (sampleWorld (ascii "<html>Goodbye</html>") 500) 4 = .running s ∧ s.checks = 4 ∧
      s.notifies = triggerCount (flagParse (sampleArgs none none))
        (sampleWorld (ascii "<html>Goodbye</html>") 500) 4 :=
  failing_notifier_keeps_going (fun _ => false) (sampleArgs none none) sampleEnviron
    (sampleWorld (ascii "<html>Goodbye</html>") 500) 4 (by decide) (by decide)
    (fun j resp _ hdo => by
      have h : sampleResponse 500 (ascii "status") (ascii "reply") = resp :=
        Except.ok.inj hdo
      rw [← h]
      decide)

/-- C10: in a round in which `checkPage` returns an error or reports the phrase
present, whatever the dry-run flag, the loop makes no call of `notify` and goes
on to the next round; any number of such rounds in a row leaves the loop going
with no call of `notify` made. -/
theorem quiet_round_continues (printTable : Nat → Bool) (f : Flags) (sid tok : Str)
    (w : World) :
    (∀ s : LoopState, quietRound f w s.checks →
      ∃ s1, loopBody printTable f sid tok w s = .next s1 ∧ s1.checks = s.checks + 1 ∧
        s1.notifies = s.notifies ∧ s1.i = (s.i + 1) % 2 ^ 64) ∧
    (∀ n : Nat, (∀ j < n, quietRound f w j) →
      ∃ s, runLoop printTable f sid tok w n initialState = .running s ∧ s.checks = n ∧
        s.notifies = 0) := by
  constructor
  · intro s h
    exact loopBody_of_quiet printTable f sid tok w s ((quietRound_iff f w _).mp h)
  · intro n h
    exact runLoop_quiet printTable f sid tok w n (fun j hj => (quietRound_iff f w j).mp (h j hj))

theorem quiet_round_continues_witness :
    ∃ s, runLoop (fun _ => false) sampleFlags (ascii "AC123") (ascii "secret")
        { get := fun j => if j % 2 = 0 then .error (GoError.external (ascii "timeout"))
            else .ok (sampleResponse 200 (ascii "200 OK") (ascii "<html>Hello World</html>")),
          post := fun _ => { newRequestErr := none, doResult := .error (GoError.external []) } }
        6 initialState = .running s ∧ s.checks = 6 ∧ s.notifies = 0 :=
  (quiet_round_continues (fun _ => false) sampleFlags (ascii "AC123") (ascii "secret")
    { get := fun j => if j % 2 = 0 then .error (GoError.external (ascii "timeout"))
        else .ok (sampleResponse 200 (ascii "200 OK") (ascii "<html>Hello World</html>")),
      post := fun _ => { newRequestErr := none, doResult := .error (GoError.external []) } }).2
    6 (by decide)

end WebsiteChangeDetector
